import Mathlib

/-!
Shallow embedding of the blog list / search / get Lambda handlers
(src/unnamed/part_008, src/backend/functions/blog/list/index.js,
src/backend/functions/blog/search/index.js,
src/backend/functions/blog/get/index.js) together with a model of the
DynamoDB DocumentClient operations they invoke (query, scan, get), the
continuation-token codecs (encodeURIComponent/JSON and base64/JSON), and
the JavaScript parameter-parsing idioms (`parseInt(x) || 10`, truthiness).
-/

namespace BlogSpec

/-! ## String comparison (DynamoDB compares strings bytewise; on scalar
values this coincides with code-point lexicographic order). -/

/-- Lexicographic less-or-equal on character lists (code-point order). -/
def lexLe : List Char → List Char → Bool
  | [], _ => true
  | _ :: _, [] => false
  | a :: as, b :: bs =>
    if a < b then true
    else if b < a then false
    else lexLe as bs

/-- String comparison used for the `createdAt` sort key and `BETWEEN`. -/
def strLe (a b : String) : Bool := lexLe a.data b.data

/-! ## Data model: the stored blog entry (table key `blogId`, GSI
`userIdIndex` keyed on `userId` with sort key `createdAt`). -/

/-- A stored blog entry record. -/
structure Entry where
  blogId : String
  userId : String
  createdAt : String
  title : String
  content : String
  tags : List String
  mood : Option String
  visibility : String
  sharedWith : Option (List String)
  status : Option String
deriving DecidableEq, Repr

/-- The store's LastEvaluatedKey for the `userIdIndex` query: table key
plus index partition and sort keys. -/
structure LastKey where
  blogId : String
  userId : String
  createdAt : String
deriving DecidableEq, Repr

/-- Key of an entry as reported in LastEvaluatedKey. -/
def keyOf (e : Entry) : LastKey := ⟨e.blogId, e.userId, e.createdAt⟩

/-! ## Filter expressions. The handlers assemble a FilterExpression by
conditionally concatenating clauses with " AND "; since the grammar is a
pure conjunction of atomic clauses we embed the expression as the list of
its conjuncts, in source concatenation order. -/

/-- One atomic clause of an assembled FilterExpression. -/
inductive FilterAtom where
  | visEq (v : String)
  | dateBetween (s e : String)
  | tagContains (t : String)
  | moodEq (m : String)
  | statusEq (s : String)
  | searchExpr (q uid : String)
deriving DecidableEq, Repr

/-- Does the first list occur as a leading segment of the second? -/
def listStarts : List Char → List Char → Bool
  | [], _ => true
  | _ :: _, [] => false
  | a :: as, b :: bs => a == b && listStarts as bs

/-- Does the first list occur as a contiguous segment of the second? -/
def listSeg (n : List Char) : List Char → Bool
  | [] => n.isEmpty
  | b :: bs => listStarts n (b :: bs) || listSeg n bs

/-- Substring containment, the semantics of DynamoDB `contains` on a
string attribute (used by the search handler on title and content). -/
def strContains (h n : String) : Bool := listSeg n.data h.data

/-- Evaluate one filter clause on an entry, per DynamoDB filter
semantics: comparisons against a missing attribute are false. -/
def FilterAtom.eval : FilterAtom → Entry → Bool
  | .visEq v, e => e.visibility == v
  | .dateBetween s en, e => strLe s e.createdAt && strLe e.createdAt en
  | .tagContains t, e => e.tags.contains t
  | .moodEq m, e => e.mood == some m
  | .statusEq s, e => e.status == some s
  | .searchExpr q uid, e =>
    (strContains e.title q || strContains e.content q || e.tags.contains q)
      && (e.userId == uid || e.visibility == "public")

/-- Conjunction of all clauses of a FilterExpression. -/
def evalFilter (f : List FilterAtom) (e : Entry) : Bool :=
  f.all (fun a => a.eval e)

/-! ## The store model: DynamoDB DocumentClient over a table of entries.
The table is a list of entries; scan order is the list order; the
`userIdIndex` orders a user's entries ascending by `createdAt`. -/

/-- Insert an entry into a list sorted ascending by `createdAt`. -/
def insertByCreatedAt (e : Entry) : List Entry → List Entry
  | [] => [e]
  | x :: xs =>
    if strLe e.createdAt x.createdAt then e :: x :: xs
    else x :: insertByCreatedAt e xs

/-- Sort entries ascending by `createdAt` (the GSI index order). -/
def sortByCreatedAt : List Entry → List Entry
  | [] => []
  | x :: xs => insertByCreatedAt x (sortByCreatedAt xs)

/-- Resume a paged read strictly after the ExclusiveStartKey. -/
def resumeAfter (l : List Entry) : Option LastKey → List Entry
  | none => l
  | some k => (l.dropWhile (fun e => !(keyOf e == k))).drop 1

/-- Parameters of a DocumentClient `query` call as the list handlers
build them. -/
structure QueryParams where
  indexName : Option String
  keyUserId : Option String
  filter : List FilterAtom
  limit : Int
  exclusiveStartKey : Option LastKey
  scanIndexForward : Bool
deriving DecidableEq, Repr

/-- Parameters of a DocumentClient `scan` call. -/
structure ScanParams where
  filter : List FilterAtom
  limit : Int
  exclusiveStartKey : Option LastKey
deriving DecidableEq, Repr

/-- Result of a store call. -/
inductive DbResult where
  | page (items : List Entry) (lastKey : Option LastKey)
  | item (e : Option Entry)
  | done
  | error (msg : String)
deriving DecidableEq, Repr

/-- DocumentClient `query`: requires a key condition; reads up to
`Limit` items of the key-matching set in index order starting after the
ExclusiveStartKey, applies the filter to the items read, and reports a
LastEvaluatedKey when the read stopped before the end of the set. -/
def runQuery (p : QueryParams) (tbl : List Entry) : DbResult :=
  match p.keyUserId with
  | none =>
    .error "ValidationException: Either the KeyConditions or KeyConditionExpression parameter must be specified in the request"
  | some uid =>
    if p.limit < 1 then .error "ValidationException: Limit must be greater than or equal to 1"
    else
      let idx := sortByCreatedAt (tbl.filter (fun e => e.userId == uid))
      let ordered := if p.scanIndexForward then idx else idx.reverse
      let rem := resumeAfter ordered p.exclusiveStartKey
      let examined := rem.take p.limit.toNat
      let items := examined.filter (evalFilter p.filter)
      let lek := if p.limit.toNat < rem.length then examined.getLast?.map keyOf else none
      .page items lek

/-- DocumentClient `scan`: like `query` but over the whole table in scan
(list) order, with no key condition. -/
def runScan (p : ScanParams) (tbl : List Entry) : DbResult :=
  if p.limit < 1 then .error "ValidationException: Limit must be greater than or equal to 1"
  else
    let rem := resumeAfter tbl p.exclusiveStartKey
    let examined := rem.take p.limit.toNat
    let items := examined.filter (evalFilter p.filter)
    let lek := if p.limit.toNat < rem.length then examined.getLast?.map keyOf else none
    .page items lek

/-- Find an item by table key, the semantics of DocumentClient `get`. -/
def dbFind (tbl : List Entry) (blogId : String) : Option Entry :=
  tbl.find? (fun e => e.blogId == blogId)

/-- A store operation a handler may issue. The language includes the
write operations used elsewhere in the repository (create/delete
handlers) so that read-only-ness of the handlers under study is a
property, not a tautology. -/
inductive DbOp where
  | query (p : QueryParams)
  | scan (p : ScanParams)
  | getItem (blogId : String)
  | putItem (e : Entry)
  | deleteItem (blogId : String)
deriving DecidableEq, Repr

/-- Execute one store operation, returning its result and the table
state afterwards. Writes change the table; reads do not. -/
def applyOp : DbOp → List Entry → DbResult × List Entry
  | .query p, tbl => (runQuery p tbl, tbl)
  | .scan p, tbl => (runScan p tbl, tbl)
  | .getItem id, tbl => (.item (dbFind tbl id), tbl)
  | .putItem e, tbl => (.done, tbl.filter (fun x => !(x.blogId == e.blogId)) ++ [e])
  | .deleteItem id, tbl => (.done, tbl.filter (fun x => !(x.blogId == id)))

/-! ## Continuation-token codecs.

The authenticated handlers emit `encodeURIComponent(JSON.stringify(k))`
and decode with `JSON.parse(decodeURIComponent(t))`; the unauthenticated
list variant emits base64 of the JSON bytes and decodes with
`JSON.parse(Buffer.from(t, 'base64').toString())`. We model the JSON of
the fixed-shape key record, UTF-8 byte (de)serialization, the
percent-escape layer and the base64 layer. JSON.stringify's escaping of
control characters is omitted: it affects neither round-tripping nor any
claim, since both model and platform encode injectively. -/

/-- UTF-8 bytes of one character. -/
def utf8Bytes (c : Char) : List Nat :=
  let n := c.toNat
  if n < 0x80 then [n]
  else if n < 0x800 then [0xC0 + n / 64, 0x80 + n % 64]
  else if n < 0x10000 then [0xE0 + n / 4096, 0x80 + n / 64 % 64, 0x80 + n % 64]
  else [0xF0 + n / 262144, 0x80 + n / 4096 % 64, 0x80 + n / 64 % 64, 0x80 + n % 64]

/-- UTF-8 bytes of a character list. -/
def utf8Enc : List Char → List Nat
  | [] => []
  | c :: cs => utf8Bytes c ++ utf8Enc cs

/-- Is this a UTF-8 continuation byte? -/
def contOk (b : Nat) : Bool := 0x80 ≤ b && b < 0xC0

/-- Byte-at-a-time UTF-8 decoder: `pend` counts the continuation bytes
still expected for the character being accumulated in `acc`; `none`
models a decode exception on malformed input. -/
def utf8DecGo : Nat → Nat → List Nat → Option (List Char)
  | 0, _, [] => some []
  | _ + 1, _, [] => none
  | 0, _, b0 :: rest =>
    if b0 < 0x80 then (utf8DecGo 0 0 rest).map (fun s => Char.ofNat b0 :: s)
    else if b0 < 0xC0 then none
    else if b0 < 0xE0 then utf8DecGo 1 (b0 - 0xC0) rest
    else if b0 < 0xF0 then utf8DecGo 2 (b0 - 0xE0) rest
    else if b0 < 0xF8 then utf8DecGo 3 (b0 - 0xF0) rest
    else none
  | k + 1, acc, b :: rest =>
    if contOk b then
      if k = 0 then
        (utf8DecGo 0 0 rest).map (fun s => Char.ofNat (acc * 64 + (b - 0x80)) :: s)
      else utf8DecGo k (acc * 64 + (b - 0x80)) rest
    else none

/-- Decode a UTF-8 byte list; `none` on malformed sequences. -/
def utf8Dec (bs : List Nat) : Option (List Char) := utf8DecGo 0 0 bs

/-- Characters `encodeURIComponent` leaves unescaped:
`A-Z a-z 0-9 - _ . ! ~ * ' ( )`. -/
def isUnreserved (c : Char) : Bool :=
  let n := c.toNat
  (65 ≤ n && n ≤ 90) || (97 ≤ n && n ≤ 122) || (48 ≤ n && n ≤ 57)
    || n == 45 || n == 95 || n == 46 || n == 33 || n == 126
    || n == 42 || n == 39 || n == 40 || n == 41

/-- Uppercase hex digit of a value below 16. -/
def hexDigit (n : Nat) : Char :=
  if n < 10 then Char.ofNat (48 + n) else Char.ofNat (55 + n)

/-- Value of a hex digit character (either case); `none` otherwise. -/
def hexVal (c : Char) : Option Nat :=
  let n := c.toNat
  if 48 ≤ n && n ≤ 57 then some (n - 48)
  else if 65 ≤ n && n ≤ 70 then some (n - 55)
  else if 97 ≤ n && n ≤ 102 then some (n - 87)
  else none

/-- Percent-escape of one byte. -/
def pctByte (b : Nat) : List Char := ['%', hexDigit (b / 16), hexDigit (b % 16)]

/-- `encodeURIComponent` of one character. -/
def encCharURI (c : Char) : List Char :=
  if isUnreserved c then [c] else ((utf8Bytes c).map pctByte).flatten

/-- `encodeURIComponent` over a character list. -/
def uriEncode : List Char → List Char
  | [] => []
  | c :: cs => encCharURI c ++ uriEncode cs

/-- First phase of `decodeURIComponent`: turn each `%XX` escape into a
byte and literal characters into their UTF-8 bytes; `none` on a
malformed escape. -/
def uriToBytes : List Char → Option (List Nat)
  | [] => some []
  | c :: cs =>
    if c = '%' then
      match cs with
      | h :: l :: rest =>
        match hexVal h, hexVal l with
        | some a, some b =>
          match uriToBytes rest with
          | some bs => some ((16 * a + b) :: bs)
          | none => none
        | _, _ => none
      | _ => none
    else
      match uriToBytes cs with
      | some bs => some (utf8Bytes c ++ bs)
      | none => none

/-- Character of a 6-bit value in the standard base64 alphabet. -/
def b64Char (n : Nat) : Char :=
  if n < 26 then Char.ofNat (65 + n)
  else if n < 52 then Char.ofNat (97 + n - 26)
  else if n < 62 then Char.ofNat (48 + n - 52)
  else if n = 62 then '+' else '/'

/-- Value of a base64 alphabet character. -/
def b64Val (c : Char) : Option Nat :=
  let n := c.toNat
  if 65 ≤ n && n ≤ 90 then some (n - 65)
  else if 97 ≤ n && n ≤ 122 then some (n - 97 + 26)
  else if 48 ≤ n && n ≤ 57 then some (n - 48 + 52)
  else if n == 43 then some 62
  else if n == 47 then some 63
  else none

/-- Base64 encoding of a byte list (standard alphabet, `=` padding). -/
def b64Enc : List Nat → List Char
  | [] => []
  | [a] => [b64Char (a / 4), b64Char (a % 4 * 16), '=', '=']
  | [a, b] => [b64Char (a / 4), b64Char (a % 4 * 16 + b / 16), b64Char (b % 16 * 4), '=']
  | a :: b :: c :: rest =>
    b64Char (a / 4) :: b64Char (a % 4 * 16 + b / 16)
      :: b64Char (b % 16 * 4 + c / 64) :: b64Char (c % 64) :: b64Enc rest

/-- Base64 decoding; `none` on input that is not well-formed padded
base64. -/
def b64Dec : List Char → Option (List Nat)
  | [] => some []
  | c1 :: c2 :: c3 :: c4 :: rest =>
    match b64Val c1, b64Val c2 with
    | some v1, some v2 =>
      if c3 = '=' then
        if c4 = '=' && rest.isEmpty then some [v1 * 4 + v2 / 16] else none
      else
        match b64Val c3 with
        | some v3 =>
          if c4 = '=' then
            if rest.isEmpty then some [v1 * 4 + v2 / 16, v2 % 16 * 16 + v3 / 4] else none
          else
            match b64Val c4, b64Dec rest with
            | some v4, some bs =>
              some ((v1 * 4 + v2 / 16) :: (v2 % 16 * 16 + v3 / 4) :: (v3 % 4 * 64 + v4) :: bs)
            | _, _ => none
        | none => none
    | _, _ => none
  | _ => none

/-- JSON string-escape of one character (quote and backslash). -/
def escChar (c : Char) : List Char :=
  if c = '"' then ['\\', '"'] else if c = '\\' then ['\\', '\\'] else [c]

/-- JSON string-escape of a character list. -/
def jsonEsc : List Char → List Char
  | [] => []
  | c :: cs => escChar c ++ jsonEsc cs

/-- Unescape of a JSON escape character. -/
def unescChar (c : Char) : Option Char :=
  if c = '"' then some '"'
  else if c = '\\' then some '\\'
  else if c = '/' then some '/'
  else none

/-- Parse a JSON string body up to and including its closing quote,
returning the body and the remaining input. -/
def parseJString : List Char → Option (List Char × List Char)
  | [] => none
  | c :: rest =>
    if c = '"' then some ([], rest)
    else if c = '\\' then
      match rest with
      | [] => none
      | d :: rest2 =>
        match unescChar d, parseJString rest2 with
        | some e, some (s, r) => some (e :: s, r)
        | _, _ => none
    else
      match parseJString rest with
      | some (s, r) => some (c :: s, r)
      | none => none

/-- JSON text of a LastEvaluatedKey, as `JSON.stringify` lays out the
three-field record. -/
def stringifyKey (k : LastKey) : List Char :=
  "\x7b\"blogId\":\"".data ++ jsonEsc k.blogId.data
    ++ "\",\"userId\":\"".data ++ jsonEsc k.userId.data
    ++ "\",\"createdAt\":\"".data ++ jsonEsc k.createdAt.data
    ++ "\"\x7d".data

/-- Strip an expected literal from the front of the input. -/
def stripLit : List Char → List Char → Option (List Char)
  | [], s => some s
  | p :: ps, c :: cs => if c = p then stripLit ps cs else none
  | _ :: _, [] => none

/-- Parse the JSON text of a LastEvaluatedKey (`JSON.parse` restricted
to the record shape the handlers serialize). -/
def parseKey (cs : List Char) : Option LastKey :=
  match stripLit "\x7b\"blogId\":\"".data cs with
  | none => none
  | some r0 =>
    match parseJString r0 with
    | none => none
    | some (b, r1) =>
      match stripLit ",\"userId\":\"".data r1 with
      | none => none
      | some r2 =>
        match parseJString r2 with
        | none => none
        | some (u, r3) =>
          match stripLit ",\"createdAt\":\"".data r3 with
          | none => none
          | some r4 =>
            match parseJString r4 with
            | none => none
            | some (cr, r5) =>
              if r5 = ['}'] then
                some ⟨String.mk b, String.mk u, String.mk cr⟩
              else none

/-- The token `part_008` and the search handler emit:
`encodeURIComponent(JSON.stringify(key))`. -/
def encodeToken (k : LastKey) : String :=
  String.mk (uriEncode (stringifyKey k))

/-- The decode those handlers apply:
`JSON.parse(decodeURIComponent(token))`. -/
def decodeToken (t : String) : Option LastKey :=
  match uriToBytes t.data with
  | none => none
  | some bs =>
    match utf8Dec bs with
    | none => none
    | some cs => parseKey cs

/-- The token the unauthenticated list variant emits:
`Buffer.from(JSON.stringify(key)).toString('base64')`. -/
def encodeTokenB64 (k : LastKey) : String :=
  String.mk (b64Enc (utf8Enc (stringifyKey k)))

/-- The decode that variant applies:
`JSON.parse(Buffer.from(token, 'base64').toString())`. -/
def decodeTokenB64 (t : String) : Option LastKey :=
  match b64Dec t.data with
  | none => none
  | some bs =>
    match utf8Dec bs with
    | none => none
    | some cs => parseKey cs

/-! ## JavaScript parameter-parsing idioms. -/

/-- JS truthiness of an optional string parameter (absent and empty are
falsy). -/
def truthy : Option String → Bool
  | none => false
  | some s => !(s == "")

/-- The `x || d` defaulting idiom on an optional string. -/
def orDefault (o : Option String) (d : String) : String :=
  match o with
  | none => d
  | some s => if s == "" then d else s

/-- Is this a JS whitespace character `parseInt` skips? -/
def isJsSpace (c : Char) : Bool :=
  c == ' ' || c == '\t' || c == '\n' || c == '\r' || c.toNat == 11 || c.toNat == 12

/-- Decimal digit value. -/
def digVal (c : Char) : Option Nat :=
  if 48 ≤ c.toNat && c.toNat ≤ 57 then some (c.toNat - 48) else none

/-- Accumulate a numeral prefix with the given digit reader; `none` when
no digit is present at all. -/
def readDigits (dig : Char → Option Nat) (base : Nat) : List Char → Option Nat
  | [] => none
  | c :: cs =>
    match dig c with
    | none => none
    | some d =>
      match readDigits dig base cs with
      | some rest => some (d * base ^ cs.length + rest)
      | none => some (d * base ^ (cs.takeWhile (fun x => (dig x).isSome)).length)

/-- Numeral-prefix value: value of the longest digit prefix. -/
def numVal (dig : Char → Option Nat) (base : Nat) (cs : List Char) : Option Nat :=
  readDigits dig base (cs.takeWhile (fun x => (dig x).isSome))

/-- JavaScript `parseInt` with no radix argument: skip whitespace, read
an optional sign, honor a `0x`/`0X` hex prefix, and parse the longest
digit prefix; `none` models NaN. -/
def parseIntJS : Option String → Option Int
  | none => none
  | some s =>
    let cs := s.data.dropWhile isJsSpace
    let (neg, cs) : Bool × List Char :=
      match cs with
      | c :: rest => if c = '-' then (true, rest) else if c = '+' then (false, rest) else (false, cs)
      | [] => (false, [])
    let mag : Option Nat :=
      match cs with
      | '0' :: x :: rest =>
        if x = 'x' || x = 'X' then numVal hexVal 16 rest
        else numVal digVal 10 cs
      | _ => numVal digVal 10 cs
    match mag with
    | none => none
    | some n => some (if neg then -(n : Int) else (n : Int))

/-- The `parseInt(queryParams.limit) || 10` idiom: NaN and 0 fall back
to the default of 10. -/
def jsLimit (o : Option String) : Int :=
  match parseIntJS o with
  | none => 10
  | some n => if n = 0 then 10 else n

/-! ## The authenticated list handler (src/unnamed/part_008). -/

/-- Query-string parameters and authorizer claims of a request to the
authenticated list handler. -/
structure ListEvent where
  claimsSub : String
  limit : Option String
  nextToken : Option String
  visibility : Option String
  tag : Option String
  startDate : Option String
  endDate : Option String
  mood : Option String
deriving DecidableEq, Repr

/-- The visibility clause of the base strategy part_008 selects: a
`visibility = :visibility` filter for `private`, none for `all` (the
owner query needs no filter), and `visibility = public` for `public`. -/
def part008BaseFilter (ev : ListEvent) : List FilterAtom :=
  let vis := orDefault ev.visibility "all"
  if vis == "private" || vis == "all" then
    if !(vis == "all") then [.visEq vis] else []
  else if vis == "public" then [.visEq "public"]
  else []

/-- The KeyConditionExpression value part_008 sets: the caller's sub on
the owner-index path, nothing otherwise. -/
def part008KeyUserId (ev : ListEvent) : Option String :=
  let vis := orDefault ev.visibility "all"
  if vis == "private" || vis == "all" then some ev.claimsSub else none

/-- The IndexName part_008 sets on the owner-index path. -/
def part008IndexName (ev : ListEvent) : Option String :=
  let vis := orDefault ev.visibility "all"
  if vis == "private" || vis == "all" then some "userIdIndex" else none

/-- The complete FilterExpression part_008 assembles: the base
visibility clause, then the date-range, tag and mood clauses appended
conditionally in source order. -/
def part008Filter (ev : ListEvent) : List FilterAtom :=
  ((part008BaseFilter ev
    ++ (if truthy ev.startDate && truthy ev.endDate then
        [.dateBetween (ev.startDate.getD "") (ev.endDate.getD "")] else []))
    ++ (if truthy ev.tag then [.tagContains (ev.tag.getD "")] else []))
    ++ (if truthy ev.mood then [.moodEq (ev.mood.getD "")] else [])

/-- Assemble the DynamoDB query parameters exactly as part_008 does. -/
def part008Build (ev : ListEvent) (esk : Option LastKey) : QueryParams :=
  { indexName := part008IndexName ev
    keyUserId := part008KeyUserId ev
    filter := part008Filter ev
    limit := jsLimit ev.limit
    exclusiveStartKey := esk
    scanIndexForward := true }

/-- Parameter parsing of part_008; decoding a malformed nextToken throws
(modelled as `Except.error`, caught by the handler's generic catch). -/
def part008Params (ev : ListEvent) : Except String QueryParams :=
  if truthy ev.nextToken then
    match decodeToken (ev.nextToken.getD "") with
    | none => .error "Unexpected token in JSON"
    | some k => .ok (part008Build ev (some k))
  else .ok (part008Build ev none)

/-- Response shape of the list handlers. -/
structure ListResponse where
  statusCode : Nat
  items : List Entry
  count : Nat
  nextToken : Option String
  message : Option String
deriving DecidableEq, Repr

/-- The 500 response of part_008's catch block. -/
def listErr500 : ListResponse :=
  { statusCode := 500, items := [], count := 0, nextToken := none
    message := some "Error listing blog posts" }

/-- Run the part_008 handler against a table: build the parameters,
issue exactly one `query`, and shape the page or the catch-all 500. -/
def part008Run (ev : ListEvent) (tbl : List Entry) : ListResponse × List Entry :=
  match part008Params ev with
  | .error _ => (listErr500, tbl)
  | .ok p =>
    match applyOp (.query p) tbl with
    | (.page items lek, tbl2) =>
      ({ statusCode := 200, items := items, count := items.length
         nextToken := lek.map encodeToken, message := none }, tbl2)
    | (_, tbl2) => (listErr500, tbl2)

/-! ## The unauthenticated list variant
(src/backend/functions/blog/list/index.js). -/

/-- Query-string parameters of the unauthenticated list variant. -/
structure BListEvent where
  userId : Option String
  limit : Option String
  nextToken : Option String
deriving DecidableEq, Repr

/-- Response shape of the unauthenticated list variant (`blogs` plus an
explicitly nullable nextToken). -/
structure BListResponse where
  statusCode : Nat
  blogs : List Entry
  nextToken : Option String
  message : Option String
deriving DecidableEq, Repr

/-- Run the unauthenticated list variant: base64 token decode, then
either a `query` on the userIdIndex (userId supplied) or a table `scan`,
both filtered to PUBLISHED and with `ScanIndexForward: false`. -/
def backendListRun (ev : BListEvent) (tbl : List Entry) :
    BListResponse × List Entry :=
  let esk : Except String (Option LastKey) :=
    if truthy ev.nextToken then
      match decodeTokenB64 (ev.nextToken.getD "") with
      | none => .error "Unexpected token in JSON"
      | some k => .ok (some k)
    else .ok none
  match esk with
  | .error _ =>
    ({ statusCode := 500, blogs := [], nextToken := none
       message := some "Error listing blog posts" }, tbl)
  | .ok esk =>
    let op : DbOp :=
      if truthy ev.userId then
        .query { indexName := some "userIdIndex", keyUserId := some (ev.userId.getD "")
                 filter := [.statusEq "PUBLISHED"], limit := jsLimit ev.limit
                 exclusiveStartKey := esk, scanIndexForward := false }
      else
        .scan { filter := [.statusEq "PUBLISHED"], limit := jsLimit ev.limit
                exclusiveStartKey := esk }
    match applyOp op tbl with
    | (.page items lek, tbl2) =>
      ({ statusCode := 200, blogs := items
         nextToken := lek.map encodeTokenB64, message := none }, tbl2)
    | (_, tbl2) =>
      ({ statusCode := 500, blogs := [], nextToken := none
         message := some "Error listing blog posts" }, tbl2)

/-! ## The search handler (src/backend/functions/blog/search/index.js). -/

/-- Query-string parameters and authorizer claims of a search request. -/
structure SearchEvent where
  claimsSub : String
  q : Option String
  limit : Option String
  nextToken : Option String
deriving DecidableEq, Repr

/-- Run the search handler: token decode (throws on malformed input,
caught as 500), then a 400 when the search term is missing or empty,
then exactly one `scan` with the fixed search filter expression. -/
def searchRun (ev : SearchEvent) (tbl : List Entry) : ListResponse × List Entry :=
  let searchTerm := orDefault ev.q ""
  let esk : Except String (Option LastKey) :=
    if truthy ev.nextToken then
      match decodeToken (ev.nextToken.getD "") with
      | none => .error "Unexpected token in JSON"
      | some k => .ok (some k)
    else .ok none
  match esk with
  | .error _ =>
    ({ statusCode := 500, items := [], count := 0, nextToken := none
       message := some "Error searching blog posts" }, tbl)
  | .ok esk =>
    if searchTerm == "" then
      ({ statusCode := 400, items := [], count := 0, nextToken := none
         message := some "Search term is required" }, tbl)
    else
      match applyOp (.scan { filter := [.searchExpr searchTerm ev.claimsSub]
                             limit := jsLimit ev.limit, exclusiveStartKey := esk }) tbl with
      | (.page items lek, tbl2) =>
        ({ statusCode := 200, items := items, count := items.length
           nextToken := lek.map encodeToken, message := none }, tbl2)
      | (_, tbl2) =>
        ({ statusCode := 500, items := [], count := 0, nextToken := none
           message := some "Error searching blog posts" }, tbl2)

/-! ## The single-entry get handler
(src/backend/functions/blog/get/index.js). -/

/-- Response of the get handler: a status, the entry on success, and
the error message otherwise. -/
structure GetResponse where
  statusCode : Nat
  body : Option Entry
  message : Option String
deriving DecidableEq, Repr

/-- Run the get handler: one `get` by blogId, then the 404 branch, the
private-visibility 403 branch, and the shared-visibility viewer-list 403
branch, in source order. -/
def getRun (blogId userSub email : String) (tbl : List Entry) :
    GetResponse × List Entry :=
  match applyOp (.getItem blogId) tbl with
  | (.item none, tbl2) =>
    ({ statusCode := 404, body := none, message := some "Blog post not found" }, tbl2)
  | (.item (some blog), tbl2) =>
    if blog.visibility == "private" && !(blog.userId == userSub) then
      ({ statusCode := 403, body := none
         message := some "You do not have permission to view this blog post" }, tbl2)
    else if blog.visibility == "shared" && !(blog.userId == userSub) then
      if !((blog.sharedWith.getD []).contains email) then
        ({ statusCode := 403, body := none
           message := some "You do not have permission to view this blog post" }, tbl2)
      else ({ statusCode := 200, body := some blog, message := none }, tbl2)
    else ({ statusCode := 200, body := some blog, message := none }, tbl2)
  | (_, tbl2) =>
    ({ statusCode := 500, body := none, message := some "Error getting blog post" }, tbl2)

/-! ## Observation helpers and concrete fixtures used by individual
claims. -/

/-- The store-level result of the single query part_008 issues: the raw
item page and LastEvaluatedKey, before response shaping. -/
def part008Store (ev : ListEvent) (tbl : List Entry) :
    Option (List Entry × Option LastKey) :=
  match part008Params ev with
  | .error _ => none
  | .ok p =>
    match runQuery p tbl with
    | .page items lek => some (items, lek)
    | _ => none

/-- The store-level result of the single scan the search handler
issues. -/
def searchStore (ev : SearchEvent) (tbl : List Entry) :
    Option (List Entry × Option LastKey) :=
  let searchTerm := orDefault ev.q ""
  let esk : Except String (Option LastKey) :=
    if truthy ev.nextToken then
      match decodeToken (ev.nextToken.getD "") with
      | none => .error "Unexpected token in JSON"
      | some k => .ok (some k)
    else .ok none
  match esk with
  | .error _ => none
  | .ok esk =>
    if searchTerm == "" then none
    else
      match runScan { filter := [.searchExpr searchTerm ev.claimsSub]
                      limit := jsLimit ev.limit, exclusiveStartKey := esk } tbl with
      | .page items lek => some (items, lek)
      | _ => none

/-- The `Limit` part_008 passes to the store, when the request reaches
the store call. -/
def part008Limit (ev : ListEvent) : Option Int :=
  match part008Params ev with
  | .error _ => none
  | .ok p => some p.limit

/-- A list event with only the caller identity set (all query
parameters absent). -/
def baseListEvent : ListEvent :=
  { claimsSub := "u1", limit := none, nextToken := none, visibility := none
    tag := none, startDate := none, endDate := none, mood := none }

/-- A minimal entry fixture owned by `u1`. -/
def mkEntry (blogId createdAt : String) (tags : List String)
    (mood : Option String) : Entry :=
  { blogId := blogId, userId := "u1", createdAt := createdAt, title := "t"
    content := "c", tags := tags, mood := mood, visibility := "private"
    sharedWith := none, status := none }

/-- Scenario entry created 2024-01-01 (C1). -/
def c1Jan : Entry := mkEntry "b1" "2024-01-01T00:00:00Z" ["welcome"] none

/-- Scenario entry created 2024-02-01 (C1). -/
def c1Feb : Entry := mkEntry "b2" "2024-02-01T00:00:00Z" ["update"] none

/-- Scenario table for C1. -/
def c1Tbl : List Entry := [c1Feb, c1Jan]

/-- Scenario request for C1: visibilityScope all, pageSize 1. -/
def c1Ev : ListEvent := { baseListEvent with limit := some "1", visibility := some "all" }

/-- A request to the unauthenticated list variant with a userId (C1). -/
def c1Bev : BListEvent := { userId := some "u1", limit := none, nextToken := none }

/-- Entry matching the tag filter (C2). -/
def c2A : Entry := mkEntry "b1" "2024-01-01T00:00:00Z" ["x"] none

/-- Entry failing the tag filter (C2). -/
def c2B : Entry := mkEntry "b2" "2024-02-01T00:00:00Z" ["y"] none

/-- Table for C2. -/
def c2Tbl : List Entry := [c2A, c2B]

/-- Request for C2: pageSize 1 with a tag filter. -/
def c2Ev : ListEvent := { baseListEvent with limit := some "1", tag := some "x" }

/-- Request for C3: a continuation token that is not decodable. -/
def c3Ev : ListEvent := { baseListEvent with nextToken := some "garbage" }

/-- Request for C4: pageSize 1000, above the spec's fixed maximum. -/
def c4Ev : ListEvent := { baseListEvent with limit := some "1000" }

/-- Entry E1 of the C5 scenario: tag a, mood Happy. -/
def c5E1 : Entry := mkEntry "b1" "2024-01-01T00:00:00Z" ["a"] (some "Happy")

/-- Entry E2 of the C5 scenario: tag a, mood Sad. -/
def c5E2 : Entry := mkEntry "b2" "2024-02-01T00:00:00Z" ["a"] (some "Sad")

/-- Table for C5. -/
def c5Tbl : List Entry := [c5E1, c5E2]

/-- Request for C5: tag=a and mood=Happy. -/
def c5Ev : ListEvent := { baseListEvent with tag := some "a", mood := some "Happy" }

/-- A shared-visibility entry owned by `owner1` with one listed viewer
(C6). -/
def c6Shared : Entry :=
  { blogId := "s1", userId := "owner1", createdAt := "2024-03-01T00:00:00Z"
    title := "t", content := "c", tags := [], mood := none
    visibility := "shared", sharedWith := some ["friend@example.com"]
    status := none }

/-- Table for C6. -/
def c6Tbl : List Entry := [c6Shared]

/-- Request for C7: visibilityScope public. -/
def c7Ev : ListEvent := { baseListEvent with visibility := some "public" }

/-- An entry whose creation date lies between the C8 bounds in the
wrong order. -/
def c8Ent : Entry := mkEntry "b1" "2024-03-15T00:00:00Z" [] none

/-- Table for C8. -/
def c8Tbl : List Entry := [c8Ent]

/-- Request for C8: dateRange with start after end. -/
def c8Ev : ListEvent :=
  { baseListEvent with startDate := some "2024-06-01", endDate := some "2024-01-01" }

/-! ## Theorems. First, properties of the lexicographic comparison. -/

theorem lexLe_refl : ∀ l : List Char, lexLe l l = true := by
  intro l
  induction l with
  | nil => rfl
  | cons a as ih => simp [lexLe, ih]

theorem lexLe_total : ∀ a b : List Char, lexLe a b = false → lexLe b a = true := by
  intro a
  induction a with
  | nil => intro b h; simp [lexLe] at h
  | cons x xs ih =>
    intro b h
    cases b with
    | nil => simp [lexLe]
    | cons y ys =>
      simp only [lexLe] at h ⊢
      by_cases hxy : x < y
      · simp [hxy] at h
      · by_cases hyx : y < x
        · simp [hyx]
        · simp [hxy, hyx] at h ⊢
          exact ih ys h

theorem lexLe_trans : ∀ a b c : List Char,
    lexLe a b = true → lexLe b c = true → lexLe a c = true := by
  intro a
  induction a with
  | nil => intro b c _ _; rfl
  | cons x xs ih =>
    intro b c hab hbc
    cases b with
    | nil => simp [lexLe] at hab
    | cons y ys =>
      cases c with
      | nil => simp [lexLe] at hbc
      | cons z zs =>
        simp only [lexLe] at hab hbc ⊢
        by_cases hxy : x < y
        · by_cases hyz : y < z
          · simp [lt_trans hxy hyz]
          · by_cases hzy : z < y
            · simp [hyz, hzy] at hbc
            · have : y = z := le_antisymm (not_lt.mp hzy) (not_lt.mp hyz)
              subst this
              simp [hxy]
        · by_cases hyx : y < x
          · simp [hxy, hyx] at hab
          · have hxyeq : x = y := le_antisymm (not_lt.mp hyx) (not_lt.mp hxy)
            subst hxyeq
            simp only [lt_irrefl, if_false] at hab
            by_cases hxz : x < z
            · simp [hxz]
            · by_cases hzx : z < x
              · simp [hxz, hzx] at hbc
              · simp [hxz, hzx] at hab hbc ⊢
                exact ih ys zs hab hbc

theorem strLe_total (a b : String) : strLe a b = false → strLe b a = true :=
  lexLe_total a.data b.data

theorem strLe_trans {a b c : String} :
    strLe a b = true → strLe b c = true → strLe a c = true :=
  lexLe_trans a.data b.data c.data

/-! ## Sortedness of the modelled userIdIndex. -/

/-- Ascending `createdAt` order between two entries. -/
def entLe (a b : Entry) : Prop := strLe a.createdAt b.createdAt = true

theorem mem_insertByCreatedAt {y e : Entry} {l : List Entry} :
    y ∈ insertByCreatedAt e l → y = e ∨ y ∈ l := by
  induction l with
  | nil => intro h; simp [insertByCreatedAt] at h; exact Or.inl h
  | cons x xs ih =>
    intro h
    simp only [insertByCreatedAt] at h
    by_cases hc : strLe e.createdAt x.createdAt = true
    · simp [hc] at h
      rcases h with h | h | h
      · exact Or.inl h
      · exact Or.inr (by simp [h])
      · exact Or.inr (by simp [h])
    · simp [hc] at h
      rcases h with h | h
      · exact Or.inr (by simp [h])
      · rcases ih h with h' | h'
        · exact Or.inl h'
        · exact Or.inr (by simp [h'])

theorem pairwise_insertByCreatedAt {e : Entry} {l : List Entry}
    (h : l.Pairwise entLe) : (insertByCreatedAt e l).Pairwise entLe := by
  induction l with
  | nil => simp [insertByCreatedAt]
  | cons x xs ih =>
    simp only [insertByCreatedAt]
    rcases List.pairwise_cons.mp h with ⟨hx, hxs⟩
    by_cases hc : strLe e.createdAt x.createdAt = true
    · simp only [hc, if_true]
      refine List.pairwise_cons.mpr ⟨?_, h⟩
      intro y hy
      rcases List.mem_cons.mp hy with rfl | hy2
      · exact hc
      · exact strLe_trans hc (hx y hy2)
    · simp only [hc, if_false]
      refine List.pairwise_cons.mpr ⟨?_, ih hxs⟩
      intro y hy
      rcases mem_insertByCreatedAt hy with rfl | hy'
      · exact strLe_total _ _ (by simpa using hc)
      · exact hx y hy'

theorem pairwise_sortByCreatedAt (l : List Entry) :
    (sortByCreatedAt l).Pairwise entLe := by
  induction l with
  | nil => simp [sortByCreatedAt]
  | cons x xs ih => exact pairwise_insertByCreatedAt ih

theorem resumeAfter_sublist (l : List Entry) (k : Option LastKey) :
    (resumeAfter l k).Sublist l := by
  cases k with
  | none => simp [resumeAfter]
  | some k =>
    simp only [resumeAfter]
    exact ((l.dropWhile _).drop_sublist 1).trans (l.dropWhile_sublist _)

/-! ## Round trip of the JSON layer of the token codec. -/

theorem parseJString_jsonEsc (s rest : List Char) :
    parseJString (jsonEsc s ++ ('"' :: rest)) = some (s, rest) := by
  induction s with
  | nil => simp [jsonEsc, parseJString.eq_def]
  | cons c cs ih =>
    by_cases hq : c = '"'
    · subst hq
      simp only [jsonEsc, escChar, List.cons_append, List.nil_append, if_pos rfl]
      rw [parseJString.eq_def]
      simp [unescChar, ih]
    · by_cases hb : c = '\\'
      · subst hb
        simp only [jsonEsc, escChar, List.cons_append, List.nil_append]
        norm_num
        rw [parseJString.eq_def]
        simp [unescChar, ih]
      · simp only [jsonEsc, escChar, hq, hb, if_false, List.cons_append,
          List.nil_append]
        rw [parseJString.eq_def]
        simp [hq, hb, ih]

theorem stripLit_append (p s : List Char) : stripLit p (p ++ s) = some s := by
  induction p with
  | nil => simp [stripLit]
  | cons c cs ih => simp [stripLit, ih]

theorem strMk_data (s : String) : String.mk s.data = s := rfl

theorem parseKey_stringifyKey (k : LastKey) : parseKey (stringifyKey k) = some k := by
  have h1 : stringifyKey k =
      "\x7b\"blogId\":\"".data ++ (jsonEsc k.blogId.data ++ ('"' ::
        (",\"userId\":\"".data ++ (jsonEsc k.userId.data ++ ('"' ::
          (",\"createdAt\":\"".data ++ (jsonEsc k.createdAt.data ++ ('"' ::
            ['}'])))))))) := by
    simp [stringifyKey]
  simp only [parseKey, h1, stripLit_append, parseJString_jsonEsc]
  simp [strMk_data]

/-! ## Round trip of the UTF-8 byte layer. -/

theorem char_toNat_lt (c : Char) : c.toNat < 1114112 := by
  rcases c.valid with h | ⟨h1, h2⟩ <;> simp [Char.toNat] <;> omega

theorem utf8Bytes_lt (c : Char) : ∀ b ∈ utf8Bytes c, b < 256 := by
  have := char_toNat_lt c
  intro b hb
  unfold utf8Bytes at hb
  by_cases h1 : c.toNat < 0x80
  · simp [h1] at hb; omega
  · by_cases h2 : c.toNat < 0x800
    · simp [h1, h2] at hb; omega
    · by_cases h3 : c.toNat < 0x10000
      · simp [h1, h2, h3] at hb
        rcases hb with h | h | h <;> omega
      · simp [h1, h2, h3] at hb
        rcases hb with h | h | h | h <;> omega

theorem utf8DecGo_cont (k acc b : Nat) (rest : List Nat) (hb : contOk b = true) :
    utf8DecGo (k + 1) acc (b :: rest) =
      if k = 0 then
        (utf8DecGo 0 0 rest).map (fun s => Char.ofNat (acc * 64 + (b - 0x80)) :: s)
      else utf8DecGo k (acc * 64 + (b - 0x80)) rest := by
  rw [utf8DecGo.eq_4]
  rw [if_pos hb]

theorem utf8Dec_utf8Bytes_append (c : Char) (bs : List Nat) :
    utf8Dec (utf8Bytes c ++ bs) = (utf8Dec bs).map (fun s => c :: s) := by
  have hlt := char_toNat_lt c
  unfold utf8Dec
  by_cases h1 : c.toNat < 0x80
  · have hb : utf8Bytes c = [c.toNat] := by unfold utf8Bytes; rw [if_pos h1]
    rw [hb]
    show utf8DecGo 0 0 (c.toNat :: bs) = _
    rw [utf8DecGo.eq_3, if_pos h1, Char.ofNat_toNat]
  · by_cases h2 : c.toNat < 0x800
    · have hb : utf8Bytes c = [0xC0 + c.toNat / 64, 0x80 + c.toNat % 64] := by
        unfold utf8Bytes; rw [if_neg h1, if_pos h2]
      rw [hb]
      show utf8DecGo 0 0 ((0xC0 + c.toNat / 64) :: (0x80 + c.toNat % 64) :: bs) = _
      rw [utf8DecGo.eq_3]
      rw [if_neg (by omega), if_neg (by omega), if_pos (by omega)]
      rw [utf8DecGo_cont 0 _ _ _ (by simp [contOk]; omega), if_pos rfl]
      have hn : (0xC0 + c.toNat / 64 - 0xC0) * 64 + (0x80 + c.toNat % 64 - 0x80)
          = c.toNat := by omega
      rw [hn, Char.ofNat_toNat]
    · by_cases h3 : c.toNat < 0x10000
      · have hb : utf8Bytes c = [0xE0 + c.toNat / 4096, 0x80 + c.toNat / 64 % 64,
            0x80 + c.toNat % 64] := by
          unfold utf8Bytes; rw [if_neg h1, if_neg h2, if_pos h3]
        rw [hb]
        show utf8DecGo 0 0 ((0xE0 + c.toNat / 4096) :: (0x80 + c.toNat / 64 % 64)
          :: (0x80 + c.toNat % 64) :: bs) = _
        rw [utf8DecGo.eq_3]
        rw [if_neg (by omega), if_neg (by omega), if_neg (by omega),
          if_pos (by omega)]
        rw [utf8DecGo_cont 1 _ _ _ (by simp [contOk]; omega), if_neg (by omega)]
        rw [utf8DecGo_cont 0 _ _ _ (by simp [contOk]; omega), if_pos rfl]
        have hn : ((0xE0 + c.toNat / 4096 - 0xE0) * 64
            + (0x80 + c.toNat / 64 % 64 - 0x80)) * 64
            + (0x80 + c.toNat % 64 - 0x80) = c.toNat := by omega
        rw [hn, Char.ofNat_toNat]
      · have hb : utf8Bytes c = [0xF0 + c.toNat / 262144, 0x80 + c.toNat / 4096 % 64,
            0x80 + c.toNat / 64 % 64, 0x80 + c.toNat % 64] := by
          unfold utf8Bytes; rw [if_neg h1, if_neg h2, if_neg h3]
        rw [hb]
        show utf8DecGo 0 0 ((0xF0 + c.toNat / 262144) :: (0x80 + c.toNat / 4096 % 64)
          :: (0x80 + c.toNat / 64 % 64) :: (0x80 + c.toNat % 64) :: bs) = _
        rw [utf8DecGo.eq_3]
        rw [if_neg (by omega), if_neg (by omega), if_neg (by omega),
          if_neg (by omega), if_pos (by omega)]
        rw [utf8DecGo_cont 2 _ _ _ (by simp [contOk]; omega), if_neg (by omega)]
        rw [utf8DecGo_cont 1 _ _ _ (by simp [contOk]; omega), if_neg (by omega)]
        rw [utf8DecGo_cont 0 _ _ _ (by simp [contOk]; omega), if_pos rfl]
        have hn : (((0xF0 + c.toNat / 262144 - 0xF0) * 64
            + (0x80 + c.toNat / 4096 % 64 - 0x80)) * 64
            + (0x80 + c.toNat / 64 % 64 - 0x80)) * 64
            + (0x80 + c.toNat % 64 - 0x80) = c.toNat := by omega
        rw [hn, Char.ofNat_toNat]

theorem utf8Dec_utf8Enc (s : List Char) : utf8Dec (utf8Enc s) = some s := by
  induction s with
  | nil => rfl
  | cons c cs ih =>
    show utf8Dec (utf8Bytes c ++ utf8Enc cs) = _
    rw [utf8Dec_utf8Bytes_append, ih]
    rfl

theorem utf8Enc_lt (s : List Char) : ∀ b ∈ utf8Enc s, b < 256 := by
  induction s with
  | nil => intro b hb; simp [utf8Enc] at hb
  | cons c cs ih =>
    intro b hb
    simp only [utf8Enc, List.mem_append] at hb
    rcases hb with hb | hb
    · exact utf8Bytes_lt c b hb
    · exact ih b hb

/-! ## Round trip of the percent-escape layer. -/

theorem hexVal_hexDigit : ∀ n, n < 16 → hexVal (hexDigit n) = some n := by decide

theorem isUnreserved_ne_pct (c : Char) (h : isUnreserved c = true) : ¬ c = '%' := by
  intro he
  subst he
  exact absurd h (by decide)

theorem uriToBytes_pct (a : Nat) (ha : a < 256) (rest : List Char) :
    uriToBytes (pctByte a ++ rest) = (uriToBytes rest).map (fun bs => a :: bs) := by
  have h1 : hexVal (hexDigit (a / 16)) = some (a / 16) := hexVal_hexDigit _ (by omega)
  have h2 : hexVal (hexDigit (a % 16)) = some (a % 16) := hexVal_hexDigit _ (by omega)
  show uriToBytes ('%' :: hexDigit (a / 16) :: hexDigit (a % 16) :: rest) = _
  rw [uriToBytes.eq_def]
  simp only [if_pos rfl, h1, h2]
  have h3 : 16 * (a / 16) + a % 16 = a := by omega
  rw [h3]
  cases hd : uriToBytes rest <;> simp

theorem uriToBytes_pct_list (bs : List Nat) (h : ∀ b ∈ bs, b < 256)
    (rest : List Char) :
    uriToBytes ((bs.map pctByte).flatten ++ rest)
      = (uriToBytes rest).map (fun l => bs ++ l) := by
  induction bs with
  | nil =>
    simp only [List.map_nil, List.flatten_nil, List.nil_append]
    cases hd : uriToBytes rest <;> simp [hd]
  | cons b bs ih =>
    simp only [List.map_cons, List.flatten_cons, List.append_assoc]
    rw [uriToBytes_pct b (h b (by simp))]
    rw [ih (fun x hx => h x (by simp [hx]))]
    cases hd : uriToBytes rest <;> simp [hd]

theorem uriToBytes_uriEncode (s : List Char) :
    uriToBytes (uriEncode s) = some (utf8Enc s) := by
  induction s with
  | nil => rfl
  | cons c cs ih =>
    show uriToBytes (encCharURI c ++ uriEncode cs) = some (utf8Bytes c ++ utf8Enc cs)
    by_cases hu : isUnreserved c = true
    · have he : encCharURI c = [c] := by unfold encCharURI; rw [if_pos hu]
      rw [he]
      show uriToBytes (c :: uriEncode cs) = _
      have hne := isUnreserved_ne_pct c hu
      rw [uriToBytes.eq_def]
      simp [hne, ih]
    · have he : encCharURI c = ((utf8Bytes c).map pctByte).flatten := by
        unfold encCharURI; rw [if_neg hu]
      rw [he, uriToBytes_pct_list (utf8Bytes c) (utf8Bytes_lt c), ih]
      rfl

/-! ## Round trip of the base64 layer. -/

theorem b64Val_b64Char : ∀ n, n < 64 → b64Val (b64Char n) = some n := by decide

theorem b64Char_ne_eq : ∀ n, n < 64 → ¬ b64Char n = '=' := by decide

theorem b64Dec_b64Enc (bs : List Nat) (h : ∀ b ∈ bs, b < 256) :
    b64Dec (b64Enc bs) = some bs := by
  induction bs using b64Enc.induct with
  | case1 => rfl
  | case2 a =>
    have ha := h a (by simp)
    show b64Dec [b64Char (a / 4), b64Char (a % 4 * 16), '=', '='] = some [a]
    rw [b64Dec.eq_def]
    have e1 := b64Val_b64Char _ (by omega : a / 4 < 64)
    have e2 := b64Val_b64Char _ (by omega : a % 4 * 16 < 64)
    have h1 : a / 4 * 4 + a % 4 * 16 / 16 = a := by omega
    simp [e1, e2, h1]
    omega
  | case3 a b =>
    have ha := h a (by simp)
    have hb := h b (by simp)
    show b64Dec [b64Char (a / 4), b64Char (a % 4 * 16 + b / 16),
      b64Char (b % 16 * 4), '='] = some [a, b]
    rw [b64Dec.eq_def]
    have e1 := b64Val_b64Char _ (by omega : a / 4 < 64)
    have e2 := b64Val_b64Char _ (by omega : a % 4 * 16 + b / 16 < 64)
    have e3 := b64Val_b64Char _ (by omega : b % 16 * 4 < 64)
    have hne := b64Char_ne_eq (b % 16 * 4) (by omega)
    have h1 : a / 4 * 4 + (a % 4 * 16 + b / 16) / 16 = a := by omega
    have h2 : (a % 4 * 16 + b / 16) % 16 * 16 + b % 16 * 4 / 4 = b := by omega
    simp [e1, e2, e3, hne, h1, h2]
    omega
  | case4 a b c rest ih =>
    have ha := h a (by simp)
    have hb := h b (by simp)
    have hc := h c (by simp)
    show b64Dec (b64Char (a / 4) :: b64Char (a % 4 * 16 + b / 16)
      :: b64Char (b % 16 * 4 + c / 64) :: b64Char (c % 64) :: b64Enc rest)
      = some (a :: b :: c :: rest)
    rw [b64Dec.eq_def]
    have e1 := b64Val_b64Char _ (by omega : a / 4 < 64)
    have e2 := b64Val_b64Char _ (by omega : a % 4 * 16 + b / 16 < 64)
    have e3 := b64Val_b64Char _ (by omega : b % 16 * 4 + c / 64 < 64)
    have e4 := b64Val_b64Char _ (by omega : c % 64 < 64)
    have hne3 := b64Char_ne_eq (b % 16 * 4 + c / 64) (by omega)
    have hne4 := b64Char_ne_eq (c % 64) (by omega)
    have hrec := ih (fun x hx => h x (by simp [hx]))
    have h1 : a / 4 * 4 + (a % 4 * 16 + b / 16) / 16 = a := by omega
    have h2 : (a % 4 * 16 + b / 16) % 16 * 16 + (b % 16 * 4 + c / 64) / 4 = b := by omega
    have h3 : (b % 16 * 4 + c / 64) % 4 * 64 + c % 64 = c := by omega
    simp [e1, e2, e3, e4, hne3, hne4, hrec, h1, h2, h3]

/-! ## Round trips of the two complete token codecs. -/

theorem decodeToken_encodeToken (k : LastKey) :
    decodeToken (encodeToken k) = some k := by
  unfold decodeToken encodeToken
  rw [show (String.mk (uriEncode (stringifyKey k))).data
    = uriEncode (stringifyKey k) from rfl]
  rw [uriToBytes_uriEncode]
  show (match utf8Dec (utf8Enc (stringifyKey k)) with
    | none => none
    | some cs => parseKey cs) = some k
  rw [utf8Dec_utf8Enc]
  exact parseKey_stringifyKey k

theorem decodeTokenB64_encodeTokenB64 (k : LastKey) :
    decodeTokenB64 (encodeTokenB64 k) = some k := by
  unfold decodeTokenB64 encodeTokenB64
  rw [show (String.mk (b64Enc (utf8Enc (stringifyKey k)))).data
    = b64Enc (utf8Enc (stringifyKey k)) from rfl]
  rw [b64Dec_b64Enc _ (utf8Enc_lt _)]
  show (match utf8Dec (utf8Enc (stringifyKey k)) with
    | none => none
    | some cs => parseKey cs) = some k
  rw [utf8Dec_utf8Enc]
  exact parseKey_stringifyKey k

/-! ## Inversion lemmas for the store operations. -/

theorem runQuery_page_shape {p : QueryParams} {tbl : List Entry}
    {items : List Entry} {lek : Option LastKey}
    (h : runQuery p tbl = .page items lek) :
    ∃ uid, p.keyUserId = some uid ∧ ¬ p.limit < 1 ∧
      items = ((resumeAfter
          (if p.scanIndexForward then
            sortByCreatedAt (tbl.filter (fun e => e.userId == uid))
          else (sortByCreatedAt (tbl.filter (fun e => e.userId == uid))).reverse)
          p.exclusiveStartKey).take p.limit.toNat).filter (evalFilter p.filter) := by
  unfold runQuery at h
  split at h
  next => exact absurd h (by simp)
  next uid heq =>
    by_cases hl : p.limit < 1
    · rw [if_pos hl] at h
      exact absurd h (by simp)
    · rw [if_neg hl] at h
      simp only [DbResult.page.injEq] at h
      exact ⟨uid, heq, hl, h.1.symm⟩

theorem runQuery_mem_filter {p : QueryParams} {tbl items lek} {e : Entry}
    (h : runQuery p tbl = .page items lek) (he : e ∈ items) :
    evalFilter p.filter e = true := by
  obtain ⟨uid, _, _, hi⟩ := runQuery_page_shape h
  rw [hi] at he
  exact (List.mem_filter.mp he).2

theorem runQuery_length_le {p : QueryParams} {tbl items lek}
    (h : runQuery p tbl = .page items lek) : items.length ≤ p.limit.toNat := by
  obtain ⟨uid, _, _, hi⟩ := runQuery_page_shape h
  rw [hi]
  exact le_trans (List.length_filter_le _ _) (by simp)

theorem runQuery_sorted_asc {p : QueryParams} {tbl items lek}
    (h : runQuery p tbl = .page items lek) (hf : p.scanIndexForward = true) :
    items.Pairwise entLe := by
  obtain ⟨uid, _, _, hi⟩ := runQuery_page_shape h
  rw [hf] at hi
  simp only [if_true] at hi
  rw [hi]
  have hs : (sortByCreatedAt (tbl.filter (fun e => e.userId == uid))).Pairwise entLe :=
    pairwise_sortByCreatedAt _
  have hsub : ((resumeAfter (sortByCreatedAt (tbl.filter (fun e => e.userId == uid)))
      p.exclusiveStartKey).take p.limit.toNat).filter (evalFilter p.filter)
      |>.Sublist (sortByCreatedAt (tbl.filter (fun e => e.userId == uid))) := by
    refine List.Sublist.trans (List.filter_sublist _) ?_
    refine List.Sublist.trans (List.take_sublist _ _) ?_
    exact resumeAfter_sublist _ _
  exact hs.sublist hsub

theorem runQuery_sorted_desc {p : QueryParams} {tbl items lek}
    (h : runQuery p tbl = .page items lek) (hf : p.scanIndexForward = false) :
    items.Pairwise (fun a b => entLe b a) := by
  obtain ⟨uid, _, _, hi⟩ := runQuery_page_shape h
  rw [hf] at hi
  rw [if_neg (by simp)] at hi
  rw [hi]
  have hs : (sortByCreatedAt (tbl.filter (fun e => e.userId == uid))).Pairwise entLe :=
    pairwise_sortByCreatedAt _
  have hrev : ((sortByCreatedAt (tbl.filter (fun e => e.userId == uid))).reverse).Pairwise
      (fun a b => entLe b a) := by
    rw [List.pairwise_reverse]
    exact hs
  have hsub : ((resumeAfter ((sortByCreatedAt (tbl.filter (fun e => e.userId == uid))).reverse)
      p.exclusiveStartKey).take p.limit.toNat).filter (evalFilter p.filter)
      |>.Sublist ((sortByCreatedAt (tbl.filter (fun e => e.userId == uid))).reverse) := by
    refine List.Sublist.trans (List.filter_sublist _) ?_
    refine List.Sublist.trans (List.take_sublist _ _) ?_
    exact resumeAfter_sublist _ _
  exact hrev.sublist hsub

theorem runScan_page_shape {p : ScanParams} {tbl : List Entry}
    {items : List Entry} {lek : Option LastKey}
    (h : runScan p tbl = .page items lek) :
    ¬ p.limit < 1 ∧
      items = ((resumeAfter tbl p.exclusiveStartKey).take p.limit.toNat).filter
        (evalFilter p.filter) := by
  unfold runScan at h
  by_cases hl : p.limit < 1
  · rw [if_pos hl] at h; exact absurd h (by simp)
  · rw [if_neg hl] at h
    simp only [DbResult.page.injEq] at h
    exact ⟨hl, h.1.symm⟩

theorem runScan_length_le {p : ScanParams} {tbl items lek}
    (h : runScan p tbl = .page items lek) : items.length ≤ p.limit.toNat := by
  obtain ⟨_, hi⟩ := runScan_page_shape h
  rw [hi]
  exact le_trans (List.length_filter_le _ _) (by simp)

/-! ## Facts about the parameters part_008 assembles. -/

theorem part008Build_limit (ev : ListEvent) (esk : Option LastKey) :
    (part008Build ev esk).limit = jsLimit ev.limit := rfl

theorem part008Build_forward (ev : ListEvent) (esk : Option LastKey) :
    (part008Build ev esk).scanIndexForward = true := rfl

theorem part008Build_esk (ev : ListEvent) (esk : Option LastKey) :
    (part008Build ev esk).exclusiveStartKey = esk := rfl

theorem part008Build_owner_key (ev : ListEvent) (esk : Option LastKey)
    (h : orDefault ev.visibility "all" = "private" ∨ orDefault ev.visibility "all" = "all") :
    (part008Build ev esk).keyUserId = some ev.claimsSub ∧
      (part008Build ev esk).indexName = some "userIdIndex" := by
  have hc : (orDefault ev.visibility "all" == "private"
      || orDefault ev.visibility "all" == "all") = true := by
    rcases h with h | h <;> simp [h]
  constructor
  · show part008KeyUserId ev = some ev.claimsSub
    unfold part008KeyUserId
    rw [if_pos hc]
  · show part008IndexName ev = some "userIdIndex"
    unfold part008IndexName
    rw [if_pos hc]

theorem part008Build_public_key (ev : ListEvent) (esk : Option LastKey)
    (h : orDefault ev.visibility "all" = "public") :
    (part008Build ev esk).keyUserId = none ∧
      FilterAtom.visEq "public" ∈ (part008Build ev esk).filter := by
  have h1 : (orDefault ev.visibility "all" == "private"
      || orDefault ev.visibility "all" == "all") = false := by rw [h]; rfl
  have h2 : (orDefault ev.visibility "all" == "public") = true := by rw [h]; rfl
  constructor
  · show part008KeyUserId ev = none
    unfold part008KeyUserId
    rw [if_neg (by simp [h1])]
  · show FilterAtom.visEq "public" ∈ part008Filter ev
    have hb : part008BaseFilter ev = [FilterAtom.visEq "public"] := by
      unfold part008BaseFilter
      rw [if_neg (by simp [h1]), if_pos h2]
    unfold part008Filter
    rw [hb]
    simp [List.mem_append]

theorem part008Filter_tag_mem (ev : ListEvent) (h : truthy ev.tag = true) :
    FilterAtom.tagContains (ev.tag.getD "") ∈ part008Filter ev := by
  unfold part008Filter
  rw [if_pos h]
  simp [List.mem_append]

theorem part008Filter_mood_mem (ev : ListEvent) (h : truthy ev.mood = true) :
    FilterAtom.moodEq (ev.mood.getD "") ∈ part008Filter ev := by
  unfold part008Filter
  rw [if_pos h]
  simp [List.mem_append]

theorem part008Filter_date_mem (ev : ListEvent)
    (hs : truthy ev.startDate = true) (he : truthy ev.endDate = true) :
    FilterAtom.dateBetween (ev.startDate.getD "") (ev.endDate.getD "")
      ∈ part008Filter ev := by
  unfold part008Filter
  rw [if_pos (by simp [hs, he])]
  simp [List.mem_append]

theorem part008Params_ok_build {ev : ListEvent} {p : QueryParams}
    (h : part008Params ev = .ok p) : ∃ esk, p = part008Build ev esk := by
  unfold part008Params at h
  by_cases ht : truthy ev.nextToken = true
  · rw [if_pos ht] at h
    cases hd : decodeToken (ev.nextToken.getD "") with
    | none => rw [hd] at h; exact absurd h (by simp)
    | some k =>
      rw [hd] at h
      simp only [Except.ok.injEq] at h
      exact ⟨some k, h.symm⟩
  · rw [if_neg ht] at h
    simp only [Except.ok.injEq] at h
    exact ⟨none, h.symm⟩

/-! ## Handler-level inversion lemmas. -/

theorem part008Run_page {ev : ListEvent} {tbl : List Entry} {p : QueryParams}
    {items : List Entry} {lek : Option LastKey}
    (hp : part008Params ev = .ok p) (hq : runQuery p tbl = .page items lek) :
    (part008Run ev tbl).1 =
      { statusCode := 200, items := items, count := items.length,
        nextToken := lek.map encodeToken, message := none } := by
  unfold part008Run
  rw [hp]
  simp [applyOp, hq]

theorem part008Run_cases (ev : ListEvent) (tbl : List Entry) :
    (part008Run ev tbl).1.items = [] ∨
      ∃ p items lek, part008Params ev = .ok p ∧ runQuery p tbl = .page items lek ∧
        (part008Run ev tbl).1.items = items := by
  cases hp : part008Params ev with
  | error m => left; unfold part008Run; rw [hp]; rfl
  | ok p =>
    cases hq : runQuery p tbl with
    | page items lek =>
      right
      exact ⟨p, items, lek, rfl, hq, by rw [part008Run_page hp hq]⟩
    | item e => left; unfold part008Run; rw [hp]; simp [applyOp, hq, listErr500]
    | done => left; unfold part008Run; rw [hp]; simp [applyOp, hq, listErr500]
    | error m => left; unfold part008Run; rw [hp]; simp [applyOp, hq, listErr500]

theorem part008Run_status (ev : ListEvent) (tbl : List Entry) :
    (part008Run ev tbl).1.statusCode = 200 ∨ (part008Run ev tbl).1.statusCode = 500 := by
  cases hp : part008Params ev with
  | error m => right; unfold part008Run; rw [hp]; rfl
  | ok p =>
    cases hq : runQuery p tbl with
    | page items lek => left; rw [part008Run_page hp hq]
    | item e => right; unfold part008Run; rw [hp]; simp [applyOp, hq, listErr500]
    | done => right; unfold part008Run; rw [hp]; simp [applyOp, hq, listErr500]
    | error m => right; unfold part008Run; rw [hp]; simp [applyOp, hq, listErr500]

theorem part008Store_spec {ev : ListEvent} {tbl : List Entry}
    {items : List Entry} {lek : Option LastKey}
    (h : part008Store ev tbl = some (items, lek)) :
    ∃ p, part008Params ev = .ok p ∧ runQuery p tbl = .page items lek := by
  unfold part008Store at h
  split at h
  · exact absurd h (by simp)
  · rename_i p hp
    split at h
    · rename_i i l hq
      simp only [Option.some.injEq, Prod.mk.injEq] at h
      refine ⟨p, hp, ?_⟩
      rw [hq, h.1, h.2]
    · exact absurd h (by simp)

theorem searchStore_spec {ev : SearchEvent} {tbl : List Entry}
    {items : List Entry} {lek : Option LastKey}
    (h : searchStore ev tbl = some (items, lek)) :
    ∃ esk,
      runScan
        { filter := [.searchExpr (orDefault ev.q "") ev.claimsSub],
          limit := jsLimit ev.limit, exclusiveStartKey := esk } tbl = .page items lek ∧
      (searchRun ev tbl).1 =
        { statusCode := 200, items := items, count := items.length,
          nextToken := lek.map encodeToken, message := none } := by
  by_cases ht : truthy ev.nextToken = true
  · cases hd : decodeToken (ev.nextToken.getD "") with
    | none =>
      exfalso
      simp [searchStore, ht, hd] at h
    | some k =>
      by_cases hqe : (orDefault ev.q "" == "") = true
      · exfalso
        simp [searchStore, ht, hd, hqe] at h
      · cases hs : runScan
            { filter := [FilterAtom.searchExpr (orDefault ev.q "") ev.claimsSub],
              limit := jsLimit ev.limit, exclusiveStartKey := some k } tbl with
        | page i l =>
          simp only [searchStore, ht, hd, hqe, hs, if_true, if_false,
            Bool.false_eq_true, Option.some.injEq, Prod.mk.injEq] at h
          refine ⟨some k, ?_, ?_⟩
          · rw [hs, h.1, h.2]
          · simp [searchRun, ht, hd, hqe, applyOp, hs, h.1, h.2]
        | item e =>
          exfalso
          simp [searchStore, ht, hd, hqe, hs] at h
        | done =>
          exfalso
          simp [searchStore, ht, hd, hqe, hs] at h
        | error m =>
          exfalso
          simp [searchStore, ht, hd, hqe, hs] at h
  · by_cases hqe : (orDefault ev.q "" == "") = true
    · exfalso
      simp [searchStore, ht, hqe] at h
    · cases hs : runScan
          { filter := [FilterAtom.searchExpr (orDefault ev.q "") ev.claimsSub],
            limit := jsLimit ev.limit, exclusiveStartKey := none } tbl with
      | page i l =>
        simp only [searchStore, ht, hqe, hs, if_true, if_false,
          Bool.false_eq_true, Option.some.injEq, Prod.mk.injEq] at h
        refine ⟨none, ?_, ?_⟩
        · rw [hs, h.1, h.2]
        · simp [searchRun, ht, hqe, applyOp, hs, h.1, h.2]
      | item e =>
        exfalso
        simp [searchStore, ht, hqe, hs] at h
      | done =>
        exfalso
        simp [searchStore, ht, hqe, hs] at h
      | error m =>
        exfalso
        simp [searchStore, ht, hqe, hs] at h

/-! ## Remaining handler-level helper lemmas. -/

theorem part008Run_items_sorted (ev : ListEvent) (tbl : List Entry) :
    ((part008Run ev tbl).1.items).Pairwise entLe := by
  rcases part008Run_cases ev tbl with h | ⟨p, items, lek, hp, hq, hi⟩
  · rw [h]; exact List.Pairwise.nil
  · rw [hi]
    obtain ⟨esk, rfl⟩ := part008Params_ok_build hp
    exact runQuery_sorted_asc hq (part008Build_forward ev esk)

theorem backendListRun_query_sorted (bev : BListEvent) (tbl : List Entry)
    (hu : truthy bev.userId = true) :
    ((backendListRun bev tbl).1.blogs).Pairwise (fun a b => entLe b a) := by
  unfold backendListRun
  by_cases ht : truthy bev.nextToken = true
  · cases hd : decodeTokenB64 (bev.nextToken.getD "") with
    | none => simp [ht, hd]
    | some k =>
      cases hs : runQuery
          { indexName := some "userIdIndex", keyUserId := some (bev.userId.getD ""),
            filter := [.statusEq "PUBLISHED"], limit := jsLimit bev.limit,
            exclusiveStartKey := some k, scanIndexForward := false } tbl with
      | page i l =>
        simp [ht, hd, hu, applyOp, hs]
        exact runQuery_sorted_desc hs rfl
      | item e => simp [ht, hd, hu, applyOp, hs]
      | done => simp [ht, hd, hu, applyOp, hs]
      | error m => simp [ht, hd, hu, applyOp, hs]
  · cases hs : runQuery
        { indexName := some "userIdIndex", keyUserId := some (bev.userId.getD ""),
          filter := [.statusEq "PUBLISHED"], limit := jsLimit bev.limit,
          exclusiveStartKey := none, scanIndexForward := false } tbl with
    | page i l =>
      simp [ht, hu, applyOp, hs]
      exact runQuery_sorted_desc hs rfl
    | item e => simp [ht, hu, applyOp, hs]
    | done => simp [ht, hu, applyOp, hs]
    | error m => simp [ht, hu, applyOp, hs]

theorem dateBetween_unsat {s e : String} (h : strLe s e = false) (x : Entry) :
    FilterAtom.eval (.dateBetween s e) x = false := by
  unfold FilterAtom.eval
  by_cases h1 : strLe s x.createdAt = true
  · by_cases h2 : strLe x.createdAt e = true
    · exact absurd (strLe_trans h1 h2) (by rw [h]; exact Bool.false_ne_true)
    · simp [h1, h2]
  · simp [Bool.eq_false_iff.mpr h1]

/-! ## The claims. -/

/-- C1, counterexample: the claimed scenario fails on the code. For the
two-entry table of owner u1, the first page of the visibilityScope=all,
pageSize=1 request holds the 2024-01-01 entry, not the 2024-02-01 entry
the claim promises: part_008 issues its owner-index query without
ScanIndexForward, and the store default is ascending order. -/
theorem c1_counterexample :
    (part008Run c1Ev c1Tbl).1.items = [c1Jan] ∧ c1Jan ≠ c1Feb ∧
      c1Feb ∉ (part008Run c1Ev c1Tbl).1.items := by decide

/-- C1, amended: pages of the authenticated list handler are ordered
ascending (oldest first) by creation timestamp, because the handler
never sets ScanIndexForward; the unauthenticated list variant, which
sets ScanIndexForward false, is ordered newest-first on its query path.
In the scenario, the first page holds the 2024-01-01 entry with a
non-empty nextToken and the resumed page holds the 2024-02-01 entry
with no nextToken. -/
theorem c1_amended :
    (∀ ev tbl, ((part008Run ev tbl).1.items).Pairwise entLe) ∧
    (∀ bev tbl, truthy bev.userId = true →
      ((backendListRun bev tbl).1.blogs).Pairwise (fun a b => entLe b a)) ∧
    ((part008Run c1Ev c1Tbl).1.items = [c1Jan] ∧
      (part008Run c1Ev c1Tbl).1.nextToken.isSome = true ∧
      (part008Run { c1Ev with nextToken := (part008Run c1Ev c1Tbl).1.nextToken }
        c1Tbl).1.items = [c1Feb] ∧
      (part008Run { c1Ev with nextToken := (part008Run c1Ev c1Tbl).1.nextToken }
        c1Tbl).1.nextToken = none) := by
  refine ⟨part008Run_items_sorted, backendListRun_query_sorted, ?_⟩
  decide

/-- C1 witness: the amended theorem applied to a concrete
unauthenticated list request. -/
theorem c1_amended_witness :
    ((backendListRun c1Bev []).1.blogs).Pairwise (fun a b => entLe b a) :=
  c1_amended.2.1 c1Bev [] (by decide)

/-- C2, counterexample: with a tag filter and pageSize 1, the page
holds every matching entry of the table, yet a nextToken is present:
the store's LastEvaluatedKey tracks examined items, not matching items,
so "nextToken iff more matching items exist" is false as stated. -/
theorem c2_counterexample :
    (part008Run c2Ev c2Tbl).1.items = [c2A] ∧
      (part008Run c2Ev c2Tbl).1.nextToken.isSome = true ∧
      c2Tbl.filter (fun e => e.userId == "u1" && evalFilter (part008Filter c2Ev) e)
        = [c2A] := by decide

/-- C2, amended: for the list and search handlers the returned count is
at most the effective page size, and a nextToken is present exactly when
the store's retrieval result carries a LastEvaluatedKey (which can
happen even when no further matching item exists, since the store's
limit counts examined items before filtering). -/
theorem c2_amended :
    (∀ ev tbl items lek, part008Store ev tbl = some (items, lek) →
      (part008Run ev tbl).1.count ≤ (jsLimit ev.limit).toNat ∧
      (part008Run ev tbl).1.nextToken.isSome = lek.isSome) ∧
    (∀ sev tbl items lek, searchStore sev tbl = some (items, lek) →
      (searchRun sev tbl).1.count ≤ (jsLimit sev.limit).toNat ∧
      (searchRun sev tbl).1.nextToken.isSome = lek.isSome) := by
  constructor
  · intro ev tbl items lek h
    obtain ⟨p, hp, hq⟩ := part008Store_spec h
    rw [part008Run_page hp hq]
    constructor
    · show items.length ≤ (jsLimit ev.limit).toNat
      obtain ⟨esk, rfl⟩ := part008Params_ok_build hp
      have := runQuery_length_le hq
      rwa [part008Build_limit ev esk] at this
    · show (lek.map encodeToken).isSome = lek.isSome
      cases lek <;> rfl
  · intro sev tbl items lek h
    obtain ⟨esk, hs, hr⟩ := searchStore_spec h
    rw [hr]
    constructor
    · show items.length ≤ (jsLimit sev.limit).toNat
      exact runScan_length_le hs
    · show (lek.map encodeToken).isSome = lek.isSome
      cases lek <;> rfl

/-- C2 witness: the amended theorem applied to the concrete fixture. -/
theorem c2_amended_witness :
    (part008Run c2Ev c2Tbl).1.count ≤ (jsLimit c2Ev.limit).toNat ∧
      (part008Run c2Ev c2Tbl).1.nextToken.isSome
        = (some (keyOf c2A) : Option LastKey).isSome :=
  c2_amended.1 c2Ev c2Tbl [c2A] (some (keyOf c2A)) (by decide)

/-- C3, counterexample: a malformed continuation token yields the
generic 500 store-failure response, not a 4xx input-validation
response. -/
theorem c3_counterexample :
    decodeToken "garbage" = none ∧
      (part008Run c3Ev []).1.statusCode = 500 ∧
      (part008Run c3Ev []).1.statusCode ≠ 400 ∧
      (part008Run c3Ev []).1.message = some "Error listing blog posts" := by decide

/-- C3, amended: a present but undecodable continuation token makes the
decode throw inside the handler's try block; the generic catch returns
the 500 "Error listing blog posts" response, and no 4xx-equivalent
input-validation response exists on this path. -/
theorem c3_amended (ev : ListEvent) (tbl : List Entry)
    (ht : truthy ev.nextToken = true)
    (hd : decodeToken (ev.nextToken.getD "") = none) :
    (part008Run ev tbl).1 = listErr500 := by
  unfold part008Run part008Params
  rw [if_pos ht, hd]

/-- C3 witness: the amended theorem at the concrete malformed token. -/
theorem c3_amended_witness : (part008Run c3Ev []).1 = listErr500 :=
  c3_amended c3Ev [] (by decide) (by decide)

/-- C4, counterexample: a requested pageSize of 1000 is passed to the
store unchanged; nothing clamps it to the fixed maximum of 100. -/
theorem c4_counterexample :
    part008Limit c4Ev = some 1000 ∧ ¬ ((1000 : Int) ≤ 100) := by decide

/-- C4, amended: the handler never clamps the page size. The Limit
passed to the store always equals `parseInt(limit) || 10`: whatever
integer the parameter parses to (however large, bypassing any maximum),
with 10 substituted only when the parameter is absent, unparsable, or
parses to 0. Such requests do not error for this reason. -/
theorem c4_amended :
    (∀ ev p, part008Params ev = .ok p → p.limit = jsLimit ev.limit) ∧
    (∀ s n, parseIntJS (some s) = some n → n ≠ 0 → jsLimit (some s) = n) ∧
    jsLimit none = 10 := by
  refine ⟨?_, ?_, rfl⟩
  · intro ev p hp
    obtain ⟨esk, rfl⟩ := part008Params_ok_build hp
    exact part008Build_limit ev esk
  · intro s n hp hn
    unfold jsLimit
    rw [hp]
    simp [hn]

/-- C4 witness: the amended theorem at the concrete oversized request. -/
theorem c4_amended_witness :
    (part008Build c4Ev none).limit = jsLimit c4Ev.limit ∧
      jsLimit (some "1000") = 1000 :=
  ⟨c4_amended.1 c4Ev (part008Build c4Ev none) rfl,
   c4_amended.2.1 "1000" 1000 (by decide) (by decide)⟩

/-- C5, confirmed: every supplied optional filter is a conjunct of the
assembled filter expression, so a returned entry satisfies the tag
containment, the mood equality and the date-range bounds whenever those
parameters were supplied; and in the concrete E1/E2 scenario the query
with tag=a and mood=Happy returns exactly {E1}. -/
theorem c5_filter_conjunction :
    (∀ ev tbl e, e ∈ (part008Run ev tbl).1.items →
      (truthy ev.tag = true → e.tags.contains (ev.tag.getD "") = true) ∧
      (truthy ev.mood = true → (e.mood == some (ev.mood.getD "")) = true) ∧
      (truthy ev.startDate = true → truthy ev.endDate = true →
        (strLe (ev.startDate.getD "") e.createdAt
          && strLe e.createdAt (ev.endDate.getD "")) = true)) ∧
    (part008Run c5Ev c5Tbl).1.items = [c5E1] := by
  constructor
  · intro ev tbl e he
    rcases part008Run_cases ev tbl with h | ⟨p, items, lek, hp, hq, hi⟩
    · rw [h] at he; exact absurd he (List.not_mem_nil e)
    · rw [hi] at he
      have hall := runQuery_mem_filter hq he
      obtain ⟨esk, rfl⟩ := part008Params_ok_build hp
      unfold evalFilter at hall
      rw [List.all_eq_true] at hall
      refine ⟨?_, ?_, ?_⟩
      · intro htag
        have := hall _ (part008Filter_tag_mem ev htag)
        exact this
      · intro hmood
        have := hall _ (part008Filter_mood_mem ev hmood)
        exact this
      · intro hs hend
        have := hall _ (part008Filter_date_mem ev hs hend)
        exact this
  · decide

/-- C5 witness: the general conjunct applied to the returned entry of
the concrete scenario. -/
theorem c5_filter_conjunction_witness :
    c5E1.tags.contains (c5Ev.tag.getD "") = true ∧
      (c5E1.mood == some (c5Ev.mood.getD "")) = true :=
  ⟨(c5_filter_conjunction.1 c5Ev c5Tbl c5E1 (by decide)).1 (by decide),
   (c5_filter_conjunction.1 c5Ev c5Tbl c5E1 (by decide)).2.1 (by decide)⟩

/-- C6, confirmed: on the single-entry path, a missing entry yields
404; an existing shared entry yields 403 to a non-owner whose email is
not in the viewer list (also when the list is absent), 200 with the
entry to a non-owner whose email is listed, and 200 with the entry to
the owner. -/
theorem c6_shared_access (tbl : List Entry) (id uid email : String) :
    (dbFind tbl id = none → (getRun id uid email tbl).1.statusCode = 404) ∧
    (∀ e, dbFind tbl id = some e → e.visibility = "shared" → e.userId ≠ uid →
      ((e.sharedWith.getD []).contains email = false →
        (getRun id uid email tbl).1.statusCode = 403 ∧
        (getRun id uid email tbl).1.body = none) ∧
      ((e.sharedWith.getD []).contains email = true →
        (getRun id uid email tbl).1.statusCode = 200 ∧
        (getRun id uid email tbl).1.body = some e)) ∧
    (∀ e, dbFind tbl id = some e → e.userId = uid →
      (getRun id uid email tbl).1.statusCode = 200 ∧
      (getRun id uid email tbl).1.body = some e) := by
  refine ⟨?_, ?_, ?_⟩
  · intro hd
    simp [getRun, applyOp, hd]
  · intro e hd hvis huid
    have hv1 : (e.visibility == "private") = false := by simp [hvis]
    have hv2 : (e.visibility == "shared") = true := by simp [hvis]
    have hu : (e.userId == uid) = false := by simp [huid]
    constructor
    · intro hmem
      have hmem2 : ¬ email ∈ e.sharedWith.getD [] := by simpa using hmem
      simp [getRun, applyOp, hd, hv1, hv2, hu, hmem2]
    · intro hmem
      have hmem2 : email ∈ e.sharedWith.getD [] := by simpa using hmem
      simp [getRun, applyOp, hd, hv1, hv2, hu, hmem2]
  · intro e hd huid
    have hu : (e.userId == uid) = true := by simp [huid]
    simp [getRun, applyOp, hd, hu]

/-- C6 witness: the theorem at the concrete shared entry, for a
non-listed non-owner (403), a listed non-owner (200 with the entry) and
a missing id (404). -/
theorem c6_shared_access_witness :
    (getRun "s1" "other" "nobody@example.com" c6Tbl).1.statusCode = 403 ∧
      (getRun "s1" "other" "friend@example.com" c6Tbl).1.statusCode = 200 ∧
      (getRun "s1" "other" "friend@example.com" c6Tbl).1.body = some c6Shared ∧
      (getRun "missing" "other" "nobody@example.com" c6Tbl).1.statusCode = 404 :=
  ⟨(((c6_shared_access c6Tbl "s1" "other" "nobody@example.com").2.1 c6Shared
      (by decide) (by decide) (by decide)).1 (by decide)).1,
   (((c6_shared_access c6Tbl "s1" "other" "friend@example.com").2.1 c6Shared
      (by decide) (by decide) (by decide)).2 (by decide)).1,
   (((c6_shared_access c6Tbl "s1" "other" "friend@example.com").2.1 c6Shared
      (by decide) (by decide) (by decide)).2 (by decide)).2,
   (c6_shared_access c6Tbl "missing" "other" "nobody@example.com").1 (by decide)⟩

/-- C7: on the public scope part_008 builds scan-style parameters (no
key condition, a visibility=public filter) but then unconditionally
calls the store's query operation, which the store rejects without a
key condition — so every visibilityScope=public request fails with 500
instead of performing the scan the spec describes; the private/all
scopes do use the owner-index query as claimed. -/
theorem c7_public_uses_query :
    (∀ ev tbl, orDefault ev.visibility "all" = "public" →
      (part008Run ev tbl).1.statusCode = 500) ∧
    (∀ ev esk, orDefault ev.visibility "all" = "public" →
      (part008Build ev esk).keyUserId = none ∧
        FilterAtom.visEq "public" ∈ (part008Build ev esk).filter) ∧
    (∀ ev esk, (orDefault ev.visibility "all" = "private"
        ∨ orDefault ev.visibility "all" = "all") →
      (part008Build ev esk).keyUserId = some ev.claimsSub ∧
        (part008Build ev esk).indexName = some "userIdIndex") := by
  refine ⟨?_, part008Build_public_key, part008Build_owner_key⟩
  intro ev tbl h
  cases hp : part008Params ev with
  | error m => unfold part008Run; rw [hp]; rfl
  | ok p =>
    obtain ⟨esk, rfl⟩ := part008Params_ok_build hp
    have hk := (part008Build_public_key ev esk h).1
    have hq : runQuery (part008Build ev esk) tbl = .error
        "ValidationException: Either the KeyConditions or KeyConditionExpression parameter must be specified in the request" := by
      unfold runQuery
      rw [hk]
    unfold part008Run
    rw [hp]
    simp [applyOp, hq, listErr500]

/-- C7 witness: the failing input evaluated — a visibilityScope=public
request returns 500. -/
theorem c7_public_uses_query_witness :
    (part008Run c7Ev []).1.statusCode = 500 ∧
      (part008Build c7Ev none).keyUserId = none :=
  ⟨c7_public_uses_query.1 c7Ev [] (by decide),
   (c7_public_uses_query.2.1 c7Ev none (by decide)).1⟩

/-- C8, counterexample: a dateRange with start after end is not
rejected: the request succeeds with HTTP 200 and an empty page, even
though a matching entry exists between the (swapped) bounds. -/
theorem c8_counterexample :
    (part008Run c8Ev c8Tbl).1.statusCode = 200 ∧
      (part008Run c8Ev c8Tbl).1.items = [] ∧
      (part008Run c8Ev c8Tbl).1.statusCode ≠ 400 := by decide

/-- C8, amended: the handler performs no date-range validation. A
supplied range whose start exceeds its end simply produces a BETWEEN
filter clause no entry satisfies, so the request never returns a
4xx-equivalent status and its item list is empty. -/
theorem c8_amended (ev : ListEvent) (tbl : List Entry)
    (hs : truthy ev.startDate = true) (he : truthy ev.endDate = true)
    (hlt : strLe (ev.startDate.getD "") (ev.endDate.getD "") = false) :
    (part008Run ev tbl).1.items = [] ∧ (part008Run ev tbl).1.statusCode ≠ 400 := by
  constructor
  · rcases part008Run_cases ev tbl with h | ⟨p, items, lek, hp, hq, hi⟩
    · exact h
    · rw [hi]
      rw [List.eq_nil_iff_forall_not_mem]
      intro e he'
      have hall := runQuery_mem_filter hq he'
      obtain ⟨esk, rfl⟩ := part008Params_ok_build hp
      unfold evalFilter at hall
      rw [List.all_eq_true] at hall
      have hbad := hall _ (part008Filter_date_mem ev hs he)
      rw [dateBetween_unsat hlt e] at hbad
      exact Bool.false_ne_true hbad
  · rcases part008Run_status ev tbl with h | h <;> simp [h]

/-- C8 witness: the amended theorem at the concrete inverted range. -/
theorem c8_amended_witness :
    (part008Run c8Ev c8Tbl).1.items = [] ∧
      (part008Run c8Ev c8Tbl).1.statusCode ≠ 400 :=
  c8_amended c8Ev c8Tbl (by decide) (by decide) (by decide)

/-- C9, confirmed: both continuation-token codecs round-trip — decoding
the token emitted for a LastEvaluatedKey (URI-escaped JSON in the
authenticated handlers, base64 JSON in the unauthenticated list
variant) yields exactly that key. -/
theorem c9_token_roundtrip : ∀ k : LastKey,
    decodeToken (encodeToken k) = some k ∧
      decodeTokenB64 (encodeTokenB64 k) = some k :=
  fun k => ⟨decodeToken_encodeToken k, decodeTokenB64_encodeTokenB64 k⟩

/-- C10, confirmed: the list, search and single-entry get handlers
perform no writes: whatever the request and whatever the table state,
the table after the invocation equals the table before, on success and
error paths alike — while the operation language does contain writes
(putItem and deleteItem change the table). -/
theorem c10_read_only (ev : ListEvent) (sev : SearchEvent) (bev : BListEvent)
    (blogId userSub email : String) (tbl : List Entry) :
    (part008Run ev tbl).2 = tbl ∧ (searchRun sev tbl).2 = tbl ∧
      (getRun blogId userSub email tbl).2 = tbl ∧
      (backendListRun bev tbl).2 = tbl := by
  refine ⟨?_, ?_, ?_, ?_⟩
  · unfold part008Run
    cases part008Params ev with
    | error m => rfl
    | ok p => cases hq : runQuery p tbl <;> simp [applyOp, hq]
  · unfold searchRun
    by_cases ht : truthy sev.nextToken = true
    · cases hd : decodeToken (sev.nextToken.getD "") with
      | none => simp [ht, hd]
      | some k =>
        by_cases hqe : (orDefault sev.q "" == "") = true
        · simp [ht, hd, hqe]
        · cases hs : runScan
              { filter := [FilterAtom.searchExpr (orDefault sev.q "") sev.claimsSub],
                limit := jsLimit sev.limit, exclusiveStartKey := some k } tbl <;>
            simp [ht, hd, hqe, applyOp, hs]
    · by_cases hqe : (orDefault sev.q "" == "") = true
      · simp [ht, hqe]
      · cases hs : runScan
            { filter := [FilterAtom.searchExpr (orDefault sev.q "") sev.claimsSub],
              limit := jsLimit sev.limit, exclusiveStartKey := none } tbl <;>
          simp [ht, hqe, applyOp, hs]
  · unfold getRun
    cases hd : dbFind tbl blogId with
    | none => simp [applyOp, hd]
    | some blog =>
      simp only [applyOp, hd]
      split_ifs <;> rfl
  · unfold backendListRun
    by_cases ht : truthy bev.nextToken = true
    · cases hd : decodeTokenB64 (bev.nextToken.getD "") with
      | none => simp [ht, hd]
      | some k =>
        by_cases hu : truthy bev.userId = true
        · cases hs : runQuery
              { indexName := some "userIdIndex", keyUserId := some (bev.userId.getD ""),
                filter := [.statusEq "PUBLISHED"], limit := jsLimit bev.limit,
                exclusiveStartKey := some k, scanIndexForward := false } tbl <;>
            simp [ht, hd, hu, applyOp, hs]
        · cases hs : runScan
              { filter := [.statusEq "PUBLISHED"], limit := jsLimit bev.limit,
                exclusiveStartKey := some k } tbl <;>
            simp [ht, hd, hu, applyOp, hs]
    · by_cases hu : truthy bev.userId = true
      · cases hs : runQuery
            { indexName := some "userIdIndex", keyUserId := some (bev.userId.getD ""),
              filter := [.statusEq "PUBLISHED"], limit := jsLimit bev.limit,
              exclusiveStartKey := none, scanIndexForward := false } tbl <;>
          simp [ht, hu, applyOp, hs]
      · cases hs : runScan
            { filter := [.statusEq "PUBLISHED"], limit := jsLimit bev.limit,
              exclusiveStartKey := none } tbl <;>
          simp [ht, hu, applyOp, hs]

end BlogSpec
